import Mathlib

/-!
Verification of the PawQL statement compiler (query builder).

The development embeds the two generations of the query builder found in the
repository:

* namespace `V2` models `QueryBuilder` of the joins-and-quoting generation
  (the file defining `_quote`, the four join methods, and `RETURNING *`);
* namespace `V1` models `QueryBuilder` of `src/query/builder.ts`
  (no joins, identifiers rendered raw, `RETURNING <columns>`).

JavaScript runtime data is modelled by the inductive type `Value`; records
(plain objects) are ordered association lists, mirroring the insertion-order
semantics of `Object.entries` / `Object.keys`.  The statement compiler
`toSQL` is embedded in two layers: `toSQLT` produces the exact token stream
(string fragments and `$n` placeholders, each placeholder remembering the
value it binds) and `toSQL` renders the tokens to the final SQL string, so
that `renderToks` of the token stream is literally the string concatenation
performed by the source.
-/

set_option maxHeartbeats 1000000

namespace Genless

/-- JavaScript runtime values as they flow through the query builder.
`vnull` is `null`, `undef` is `undefined`; `obj` is a plain object given by
its ordered own-property list; `date` is a `Date` instance. -/
inductive Value where
  | vnull
  | undef
  | str (s : String)
  | int (n : Int)
  | bool (b : Bool)
  | date (ms : Int)
  | arr (elems : List Value)
  | obj (fields : List (String × Value))
deriving Repr

/-- A plain JavaScript object: ordered own-enumerable properties. -/
abbrev JSRecord := List (String × Value)

/-- Property access `r[k]`: the first binding of `k`, `undefined` if absent. -/
def lookupVal (r : JSRecord) (k : String) : Value :=
  match r.find? (fun p => p.1 = k) with
  | some p => p.2
  | none => Value.undef

/-- Models the JavaScript test `key in obj` for the nine operator keys used
by `_addWhere`.  Arrays and non-objects have none of those keys (they are
not own properties and do not occur on `Array.prototype`/`Object.prototype`). -/
def jsIn (key : String) : Value → Bool
  | .obj fields => fields.any (fun p => p.1 = key)
  | _ => false

/-- Models the JavaScript property read `obj[key]` for the operator keys. -/
def jsGet (key : String) : Value → Value
  | .obj fields => lookupVal fields key
  | _ => Value.undef

mutual

/-- Models `String(v)` as used for the non-null operand of `IS` / `IS NOT`.
The builder itself only ever stores `null` there, so only the `vnull`
branch is reachable from builder-constructed states; the other branches
follow the usual JavaScript stringification shapes (the exact `Date`
rendering is locale-dependent and represented symbolically). -/
def jsString : Value → String
  | .vnull => "null"
  | .undef => "undefined"
  | .str s => s
  | .int n => toString n
  | .bool b => if b then "true" else "false"
  | .date ms => "Date(" ++ toString ms ++ ")"
  | .arr elems => String.intercalate "," (jsStringList elems)
  | .obj _ => "[object Object]"

/-- Stringification of each element of an array value. -/
def jsStringList : List Value → List String
  | [] => []
  | v :: rest => jsString v :: jsStringList rest

end

/-- Is the value literally `null`? (`value === null`). -/
def Value.isNull : Value → Bool
  | .vnull => true
  | _ => false

/-- Models `s.includes(c)` for a single-character search string. -/
def strContains (s : String) (c : Char) : Bool := s.data.contains c

/-- Models `s.startsWith(c)` for a single-character prefix. -/
def strStartsWith (s : String) (c : Char) : Bool :=
  match s.data with
  | [] => false
  | x :: _ => x = c

/-- Splitting a character list at every occurrence of a separator character;
the group boundaries of `String.prototype.split`. -/
def splitCharAux (c : Char) : List Char → List (List Char)
  | [] => [[]]
  | x :: rest =>
    match splitCharAux c rest with
    | [] => [[]]
    | g :: gs => if x = c then [] :: g :: gs else (x :: g) :: gs

/-- Models `s.split(c)` for a single-character separator. -/
def splitOnChar (s : String) (c : Char) : List String :=
  (splitCharAux c s.data).map String.mk

/-- The `WhereOperator` union type of the source. -/
inductive WhereOperator where
  | EQ | NE | GT | LT | GE | LE | LIKE | ILIKE | IN | NOTIN | IS | ISNOT
deriving Repr, DecidableEq

/-- SQL text of each operator, exactly as the source's string literals. -/
def opText : WhereOperator → String
  | .EQ => "="
  | .NE => "!="
  | .GT => ">"
  | .LT => "<"
  | .GE => ">="
  | .LE => "<="
  | .LIKE => "LIKE"
  | .ILIKE => "ILIKE"
  | .IN => "IN"
  | .NOTIN => "NOT IN"
  | .IS => "IS"
  | .ISNOT => "IS NOT"

/-- The `"AND" | "OR"` connective tag on a where clause. -/
inductive Connective where
  | AND | OR
deriving Repr, DecidableEq

/-- SQL text of a connective. -/
def connText : Connective → String
  | .AND => "AND"
  | .OR => "OR"

/-- The `WhereClause` record of the source. -/
structure WhereClause where
  type : Connective
  column : String
  operator : WhereOperator
  value : Value
deriving Repr

/-- Join kinds `"INNER" | "LEFT" | "RIGHT" | "FULL"`. -/
inductive JoinKind where
  | INNER | LEFT | RIGHT | FULL
deriving Repr, DecidableEq

/-- SQL text of a join kind. -/
def joinKindText : JoinKind → String
  | .INNER => "INNER"
  | .LEFT => "LEFT"
  | .RIGHT => "RIGHT"
  | .FULL => "FULL"

/-- The `JoinClause` record of the source (`on` flattened into three fields). -/
structure JoinClause where
  type : JoinKind
  table : String
  col1 : String
  op : String
  col2 : String
deriving Repr, DecidableEq

/-- The `_data` slot: a single record or an ordered sequence of records
(`Partial<TTable> | Partial<TTable>[]`); absence is `Option.none` outside. -/
inductive JsData where
  | single (r : JSRecord)
  | many (rs : List JSRecord)
deriving Repr

/-- `Array.isArray(this._data) ? this._data : [this._data]`. -/
def dataIn : JsData → List JSRecord
  | .single r => [r]
  | .many rs => rs

/-- `Object.keys(this._data)`: own keys of a record, index strings of an
array. -/
def dataKeys : JsData → List String
  | .single r => r.map Prod.fst
  | .many rs => (List.range rs.length).map toString

/-- `(this._data as any)[key]`: property read on the raw `_data` value.
On an array, a decimal index string selects the record at that index
(wrapped back up as an object value). -/
def dataLookup : JsData → String → Value
  | .single r, k => lookupVal r k
  | .many rs, k =>
    match k.toNat? with
    | some i =>
      match rs.get? i with
      | some r => Value.obj r
      | none => Value.undef
    | none => Value.undef

/-- The `Operation` union type. -/
inductive Operation where
  | SELECT | INSERT | UPDATE | DELETE
deriving Repr, DecidableEq

/-- Compiled output: the SQL text and the ordered bound-parameter list. -/
structure SQLResult where
  sql : String
  values : List Value
deriving Repr

/-- Expansion of one recognized operator key: the nine `if (key in ops)`
pushes of `_addWhere`, in source order. -/
def opClauses (conn : Connective) (column : String) (ops : Value) : List WhereClause :=
  (if jsIn "in" ops then [⟨conn, column, .IN, jsGet "in" ops⟩] else []) ++
  (if jsIn "notIn" ops then [⟨conn, column, .NOTIN, jsGet "notIn" ops⟩] else []) ++
  (if jsIn "like" ops then [⟨conn, column, .LIKE, jsGet "like" ops⟩] else []) ++
  (if jsIn "ilike" ops then [⟨conn, column, .ILIKE, jsGet "ilike" ops⟩] else []) ++
  (if jsIn "gt" ops then [⟨conn, column, .GT, jsGet "gt" ops⟩] else []) ++
  (if jsIn "lt" ops then [⟨conn, column, .LT, jsGet "lt" ops⟩] else []) ++
  (if jsIn "gte" ops then [⟨conn, column, .GE, jsGet "gte" ops⟩] else []) ++
  (if jsIn "lte" ops then [⟨conn, column, .LE, jsGet "lte" ops⟩] else []) ++
  (if jsIn "not" ops then [⟨conn, column, .NE, jsGet "not" ops⟩] else [])

/-- Clauses contributed by a single `[key, val]` entry of a condition object:
the body of the `for` loop of `_addWhere`.  `null` gives `IS NULL`; a
non-null non-`Date` object (including an array) goes through the operator
keys; anything else is an equality. -/
def entryClauses (conn : Connective) (key : String) (val : Value) : List WhereClause :=
  match val with
  | .vnull => [⟨conn, key, .IS, .vnull⟩]
  | .arr elems => opClauses conn key (.arr elems)
  | .obj fields => opClauses conn key (.obj fields)
  | v => [⟨conn, key, .EQ, v⟩]

/-- All clauses of one `where`/`orWhere` call: the `for..of Object.entries`
loop of `_addWhere`. -/
def clausesOf (conn : Connective) : List (String × Value) → List WhereClause
  | [] => []
  | (k, v) :: rest => entryClauses conn k v ++ clausesOf conn rest

end Genless

namespace Genless.V2

open Genless

/-- Builder state of the joins-and-quoting generation:
the private fields of `QueryBuilder` (the adapter, a pure I/O handle never
read by the compiler, is omitted). -/
structure QueryBuilder where
  _table : String
  _operation : Operation := .SELECT
  _data : Option JsData := none
  _select : List String := []
  _where : List WhereClause := []
  _joins : List JoinClause := []
  _limit : Option Int := none
  _offset : Option Int := none
  _returning : Bool := false
deriving Repr

/-- `new QueryBuilder(table, adapter)`. -/
def newQB (table : String) : QueryBuilder := { _table := table }

/-- `insert(data)`. -/
def insert (qb : QueryBuilder) (data : JsData) : QueryBuilder :=
  { qb with _operation := .INSERT, _data := some data, _returning := true }

/-- `update(data)`. -/
def update (qb : QueryBuilder) (data : JSRecord) : QueryBuilder :=
  { qb with _operation := .UPDATE, _data := some (.single data), _returning := true }

/-- `delete()`. -/
def deleteOp (qb : QueryBuilder) : QueryBuilder :=
  { qb with _operation := .DELETE, _returning := true }

/-- `select(...columns)`. -/
def selectCols (qb : QueryBuilder) (columns : List String) : QueryBuilder :=
  { qb with _select := columns }

/-- Shared body of the four join methods. -/
def addJoin (qb : QueryBuilder) (kind : JoinKind) (table col1 op col2 : String) : QueryBuilder :=
  { qb with _joins := qb._joins ++ [⟨kind, table, col1, op, col2⟩] }

/-- `innerJoin(table, col1, operator, col2)`. -/
def innerJoin (qb : QueryBuilder) (table col1 op col2 : String) : QueryBuilder :=
  addJoin qb .INNER table col1 op col2

/-- `leftJoin(table, col1, operator, col2)`. -/
def leftJoin (qb : QueryBuilder) (table col1 op col2 : String) : QueryBuilder :=
  addJoin qb .LEFT table col1 op col2

/-- `_addWhere(type, conditions)`. -/
def addWhere (qb : QueryBuilder) (conn : Connective) (conds : List (String × Value)) : QueryBuilder :=
  { qb with _where := qb._where ++ clausesOf conn conds }

/-- `where(conditions)`. -/
def whereCall (qb : QueryBuilder) (conds : List (String × Value)) : QueryBuilder :=
  addWhere qb .AND conds

/-- `orWhere(conditions)`. -/
def orWhereCall (qb : QueryBuilder) (conds : List (String × Value)) : QueryBuilder :=
  addWhere qb .OR conds

/-- `limit(n)`. -/
def limitCall (qb : QueryBuilder) (n : Int) : QueryBuilder := { qb with _limit := some n }

/-- `offset(n)`. -/
def offsetCall (qb : QueryBuilder) (n : Int) : QueryBuilder := { qb with _offset := some n }

/-- The private `_quote` helper: double-quote an identifier unless it is
`*`, contains `(` or a space, or already starts with a double quote; a
dotted identifier is quoted per segment. -/
def _quote (identifier : String) : String :=
  if identifier = "*" then identifier
  else if strContains identifier '(' || strContains identifier ' ' || strStartsWith identifier '"' then
    identifier
  else if strContains identifier '.' then
    String.intercalate "." ((splitOnChar identifier '.').map (fun part => "\"" ++ part ++ "\""))
  else "\"" ++ identifier ++ "\""

/-- SQL output tokens.  `Tok.s` is a literal string fragment; `Tok.ph n v`
is the placeholder `$n`, remembering (ghost field `v`, not rendered) the
value that was pushed onto `values` when the placeholder was produced. -/
inductive Tok where
  | s (t : String)
  | ph (n : Nat) (v : Value)
deriving Repr

/-- Text of one token. -/
def Tok.render : Tok → String
  | .s t => t
  | .ph n _ => "$" ++ toString n

/-- Concatenated text of a token stream. -/
def renderToks (ts : List Tok) : String := String.join (ts.map Tok.render)

/-- `Array.prototype.join(sep)` at the token level. -/
def joinSep (sep : String) : List (List Tok) → List Tok
  | [] => []
  | [p] => p
  | p :: ps => p ++ (Tok.s sep :: joinSep sep ps)

/-- The `clause.value.map(v => { values.push(v); return placeholder })` loop
of the `IN`/`NOT IN` branch: each element becomes its own placeholder, the
counter being the length of `values` after the push. -/
def bindElems (vals : List Value) : List Value → List (List Tok) × List Value
  | [] => ([], vals)
  | v :: rest =>
    let vs := vals ++ [v]
    let (parts, vals') := bindElems vs rest
    ([Tok.ph vs.length v] :: parts, vals')

/-- Rendering of one where clause (the body of the `map` in `buildWhere`),
threading the `values` accumulator. -/
def renderClause (vals : List Value) (c : WhereClause) : List Tok × List Value :=
  let col := _quote c.column
  if c.operator = .IN ∨ c.operator = .NOTIN then
    match c.value with
    | .arr elems =>
      if elems.length > 0 then
        let phs := bindElems vals elems
        (Tok.s (col ++ " " ++ opText c.operator ++ " (") :: (joinSep ", " phs.1 ++ [Tok.s ")"]),
          phs.2)
      else ([Tok.s (if c.operator = .IN then "1=0" else "1=1")], vals)
    | _ => ([Tok.s (if c.operator = .IN then "1=0" else "1=1")], vals)
  else if c.operator = .IS ∨ c.operator = .ISNOT then
    ([Tok.s (col ++ " " ++ opText c.operator ++ " " ++
        (if c.value.isNull then "NULL" else jsString c.value))], vals)
  else
    ([Tok.s (col ++ " " ++ opText c.operator ++ " "), Tok.ph (vals ++ [c.value]).length c.value],
      vals ++ [c.value])

/-- The indexed `map` over `this._where`: the first clause is emitted bare,
every later clause is prefixed with its own connective. -/
def buildWhereParts (idx : Nat) (vals : List Value) : List WhereClause → List (List Tok) × List Value
  | [] => ([], vals)
  | c :: rest =>
    let cond := renderClause vals c
    let part := if idx = 0 then cond.1 else Tok.s (connText c.type ++ " ") :: cond.1
    let acc := buildWhereParts (idx + 1) cond.2 rest
    (part :: acc.1, acc.2)

/-- `buildWhere()`: empty filter list renders nothing, otherwise
`" WHERE "` followed by the clauses joined with single spaces. -/
def buildWhere (clauses : List WhereClause) (vals : List Value) : List Tok × List Value :=
  if clauses.length = 0 then ([], vals)
  else
    let parts := buildWhereParts 0 vals clauses
    (Tok.s " WHERE " :: joinSep " " parts.1, parts.2)

/-- Text of one join clause. -/
def joinStr (j : JoinClause) : String :=
  joinKindText j.type ++ " JOIN " ++ _quote j.table ++ " ON " ++
    _quote j.col1 ++ " " ++ j.op ++ " " ++ _quote j.col2

/-- `buildJoins()`. -/
def buildJoins (joins : List JoinClause) : String :=
  if joins.length = 0 then ""
  else " " ++ String.intercalate " " (joins.map joinStr)

/-- The `keys.forEach` loop of the INSERT branch: bind `row[key]` for each
column key, producing one placeholder per key. -/
def bindKeys (vals : List Value) (row : JSRecord) : List String → List (List Tok) × List Value
  | [] => ([], vals)
  | key :: rest =>
    let vs := vals ++ [lookupVal row key]
    let acc := bindKeys vs row rest
    ([Tok.ph vs.length (lookupVal row key)] :: acc.1, acc.2)

/-- The `dataIn.forEach` loop of the INSERT branch: one parenthesized
placeholder tuple per record. -/
def insertRows (vals : List Value) (keys : List String) : List JSRecord → List (List Tok) × List Value
  | [] => ([], vals)
  | row :: rest =>
    let rowPhs := bindKeys vals row keys
    let part := Tok.s "(" :: (joinSep ", " rowPhs.1 ++ [Tok.s ")"])
    let acc := insertRows rowPhs.2 keys rest
    (part :: acc.1, acc.2)

/-- The `updateKeys.map` loop of the UPDATE branch: `<quoted key> = $n`
parts, binding one value per key. -/
def setParts (vals : List Value) (d : JsData) : List String → List (List Tok) × List Value
  | [] => ([], vals)
  | key :: rest =>
    let v := dataLookup d key
    let vs := vals ++ [v]
    let acc := setParts vs d rest
    ((Tok.s (_quote key ++ " = ") :: [Tok.ph vs.length v]) :: acc.1, acc.2)

/-- Token-level `toSQL()`: the exact control flow of the source, producing
the token stream and the `values` list; `throw` is `Except.error`. -/
def toSQLT (qb : QueryBuilder) : Except String (List Tok × List Value) :=
  let columns :=
    if qb._select.length > 0 then String.intercalate ", " (qb._select.map _quote) else "*"
  let tableUser := _quote qb._table
  match qb._operation with
  | .SELECT =>
    let bw := buildWhere qb._where []
    .ok (Tok.s ("SELECT " ++ columns ++ " FROM " ++ tableUser) ::
          Tok.s (buildJoins qb._joins) ::
          bw.1 ++
          [Tok.s (match qb._limit with | some n => " LIMIT " ++ toString n | none => ""),
           Tok.s (match qb._offset with | some n => " OFFSET " ++ toString n | none => "")],
         bw.2)
  | .INSERT =>
    if qb._joins.length > 0 then .error "INSERT does not support JOINS"
    else
      match qb._data with
      | none => .error "No data provided for INSERT"
      | some d =>
        match dataIn d with
        | [] => .error "Empty data array for INSERT"
        | firstRow :: restRows =>
          let keys := firstRow.map Prod.fst
          if keys.length = 0 then .error "No columns to insert"
          else
            let ir := insertRows [] keys (firstRow :: restRows)
            .ok (Tok.s ("INSERT INTO " ++ tableUser ++ " (" ++
                    String.intercalate ", " (keys.map _quote) ++ ") VALUES ") ::
                  joinSep ", " ir.1 ++
                  [Tok.s (if qb._returning then " RETURNING *" else "")],
                 ir.2)
  | .UPDATE =>
    if qb._joins.length > 0 then
      .error "UPDATE does not support JOINS directly (use subqueries or raw SQL)"
    else
      match qb._data with
      | none => .error "No data provided for UPDATE"
      | some d =>
        let updateKeys := dataKeys d
        if updateKeys.length = 0 then .error "No columns to update"
        else
          let sp := setParts [] d updateKeys
          let bw := buildWhere qb._where sp.2
          .ok (Tok.s ("UPDATE " ++ tableUser ++ " SET ") ::
                joinSep ", " sp.1 ++
                bw.1 ++
                [Tok.s (if qb._returning then " RETURNING *" else "")],
               bw.2)
  | .DELETE =>
    if qb._joins.length > 0 then .error "DELETE does not support JOINS directly"
    else
      let bw := buildWhere qb._where []
      .ok (Tok.s ("DELETE FROM " ++ tableUser) ::
            bw.1 ++
            [Tok.s (if qb._returning then " RETURNING *" else "")],
           bw.2)

/-- `toSQL()`: the token stream rendered to its SQL text. -/
def toSQL (qb : QueryBuilder) : Except String SQLResult :=
  match toSQLT qb with
  | .ok (ts, vals) => .ok ⟨renderToks ts, vals⟩
  | .error e => .error e

/-- Placeholder index of a token, if any. -/
def phIdx : Tok → Option Nat
  | .s _ => none
  | .ph n _ => some n

/-- The sequence of placeholder indices of a token stream, in emission
order. -/
def phSeq (ts : List Tok) : List Nat := ts.filterMap phIdx

/-- Invariant of a rendered segment: starting from the accumulated `values`
list `vals` it only appends (producing `vals'`), its placeholders are
consecutively numbered continuing the global counter, and each placeholder
`$n` carries the value stored at position `n - 1` of the final list. -/
def SegOk (vals : List Value) (ts : List Tok) (vals' : List Value) : Prop :=
  (∃ d, vals' = vals ++ d) ∧
  phSeq ts = List.range' (vals.length + 1) (vals'.length - vals.length) ∧
  ∀ n v, Tok.ph n v ∈ ts → vals'.get? (n - 1) = some v

end Genless.V2

namespace Genless.V1

open Genless

/-- Builder state of `src/query/builder.ts` (first generation: no joins,
identifiers rendered raw). -/
structure QueryBuilder where
  _table : String
  _operation : Operation := .SELECT
  _data : Option JsData := none
  _select : List String := []
  _where : List WhereClause := []
  _limit : Option Int := none
  _offset : Option Int := none
  _returning : Bool := false
deriving Repr

/-- `new QueryBuilder(table, adapter)`. -/
def newQB (table : String) : QueryBuilder := { _table := table }

/-- `insert(data)`. -/
def insert (qb : QueryBuilder) (data : JsData) : QueryBuilder :=
  { qb with _operation := .INSERT, _data := some data, _returning := true }

/-- `update(data)`. -/
def update (qb : QueryBuilder) (data : JSRecord) : QueryBuilder :=
  { qb with _operation := .UPDATE, _data := some (.single data), _returning := true }

/-- `delete()`. -/
def deleteOp (qb : QueryBuilder) : QueryBuilder :=
  { qb with _operation := .DELETE, _returning := true }

/-- `select(...columns)`. -/
def selectCols (qb : QueryBuilder) (columns : List String) : QueryBuilder :=
  { qb with _select := columns }

/-- `_addWhere(type, conditions)` (same expansion as the later generation). -/
def addWhere (qb : QueryBuilder) (conn : Connective) (conds : List (String × Value)) : QueryBuilder :=
  { qb with _where := qb._where ++ clausesOf conn conds }

/-- `where(conditions)`. -/
def whereCall (qb : QueryBuilder) (conds : List (String × Value)) : QueryBuilder :=
  addWhere qb .AND conds

/-- `orWhere(conditions)`. -/
def orWhereCall (qb : QueryBuilder) (conds : List (String × Value)) : QueryBuilder :=
  addWhere qb .OR conds

/-- The `clause.value.map(...)` loop of the `IN`/`NOT IN` branch. -/
def bindElems (vals : List Value) : List Value → List String × List Value
  | [] => ([], vals)
  | v :: rest =>
    let vs := vals ++ [v]
    let (phs, vals') := bindElems vs rest
    (("$" ++ toString vs.length) :: phs, vals')

/-- Rendering of one where clause; the column is emitted raw
(`String(clause.column)`), with no quoting in this generation. -/
def renderClause (vals : List Value) (c : WhereClause) : String × List Value :=
  let col := c.column
  if c.operator = .IN ∨ c.operator = .NOTIN then
    match c.value with
    | .arr elems =>
      if elems.length > 0 then
        let (phs, vals') := bindElems vals elems
        (col ++ " " ++ opText c.operator ++ " (" ++ String.intercalate ", " phs ++ ")", vals')
      else (if c.operator = .IN then "1=0" else "1=1", vals)
    | _ => (if c.operator = .IN then "1=0" else "1=1", vals)
  else if c.operator = .IS ∨ c.operator = .ISNOT then
    (col ++ " " ++ opText c.operator ++ " " ++
      (if c.value.isNull then "NULL" else jsString c.value), vals)
  else
    let vs := vals ++ [c.value]
    (col ++ " " ++ opText c.operator ++ " $" ++ toString vs.length, vs)

/-- The indexed `map` over `this._where`. -/
def buildWhereParts (idx : Nat) (vals : List Value) : List WhereClause → List String × List Value
  | [] => ([], vals)
  | c :: rest =>
    let (cond, vals') := renderClause vals c
    let part := if idx = 0 then cond else connText c.type ++ " " ++ cond
    let (parts, vals'') := buildWhereParts (idx + 1) vals' rest
    (part :: parts, vals'')

/-- `buildWhere()`. -/
def buildWhere (clauses : List WhereClause) (vals : List Value) : String × List Value :=
  if clauses.length = 0 then ("", vals)
  else
    let (parts, vals') := buildWhereParts 0 vals clauses
    (" WHERE " ++ String.intercalate " " parts, vals')

/-- The `keys.forEach` loop of the INSERT branch. -/
def bindKeys (vals : List Value) (row : JSRecord) : List String → List String × List Value
  | [] => ([], vals)
  | key :: rest =>
    let vs := vals ++ [lookupVal row key]
    let (phs, vals') := bindKeys vs row rest
    (("$" ++ toString vs.length) :: phs, vals')

/-- The `dataIn.forEach` loop of the INSERT branch. -/
def insertRows (vals : List Value) (keys : List String) : List JSRecord → List String × List Value
  | [] => ([], vals)
  | row :: rest =>
    let (rowPhs, vs) := bindKeys vals row keys
    let part := "(" ++ String.intercalate ", " rowPhs ++ ")"
    let (parts, vals') := insertRows vs keys rest
    (part :: parts, vals')

/-- The `updateKeys.map` loop of the UPDATE branch (keys emitted raw). -/
def setParts (vals : List Value) (d : JsData) : List String → List String × List Value
  | [] => ([], vals)
  | key :: rest =>
    let v := dataLookup d key
    let vs := vals ++ [v]
    let (parts, vals') := setParts vs d rest
    ((key ++ " = $" ++ toString vs.length) :: parts, vals')

/-- `toSQL()` of the first generation: raw identifiers, no joins,
`RETURNING <columns>` on write statements. -/
def toSQL (qb : QueryBuilder) : Except String SQLResult :=
  let columns :=
    if qb._select.length > 0 then String.intercalate ", " qb._select else "*"
  match qb._operation with
  | .SELECT =>
    let (whereStr, vals) := buildWhere qb._where []
    .ok ⟨"SELECT " ++ columns ++ " FROM " ++ qb._table ++ whereStr ++
          (match qb._limit with | some n => " LIMIT " ++ toString n | none => "") ++
          (match qb._offset with | some n => " OFFSET " ++ toString n | none => ""),
         vals⟩
  | .INSERT =>
    match qb._data with
    | none => .error "No data provided for INSERT"
    | some d =>
      match dataIn d with
      | [] => .error "Empty data array for INSERT"
      | firstRow :: restRows =>
        let keys := firstRow.map Prod.fst
        if keys.length = 0 then .error "No columns to insert"
        else
          let (tuples, vals) := insertRows [] keys (firstRow :: restRows)
          .ok ⟨"INSERT INTO " ++ qb._table ++ " (" ++ String.intercalate ", " keys ++
                ") VALUES " ++ String.intercalate ", " tuples ++
                (if qb._returning then " RETURNING " ++ columns else ""),
               vals⟩
  | .UPDATE =>
    match qb._data with
    | none => .error "No data provided for UPDATE"
    | some d =>
      let updateKeys := dataKeys d
      if updateKeys.length = 0 then .error "No columns to update"
      else
        let (sets, vals) := setParts [] d updateKeys
        let (whereStr, vals') := buildWhere qb._where vals
        .ok ⟨"UPDATE " ++ qb._table ++ " SET " ++ String.intercalate ", " sets ++ whereStr ++
              (if qb._returning then " RETURNING " ++ columns else ""),
             vals'⟩
  | .DELETE =>
    let (whereStr, vals) := buildWhere qb._where []
    .ok ⟨"DELETE FROM " ++ qb._table ++ whereStr ++
          (if qb._returning then " RETURNING " ++ columns else ""),
         vals⟩

end Genless.V1

namespace Genless.V2

theorem mem_phSeq_of_ph {ts : List Tok} {n : Nat} {v : Value}
    (h : Tok.ph n v ∈ ts) : n ∈ phSeq ts := by
  simp only [phSeq, List.mem_filterMap]
  exact ⟨Tok.ph n v, h, rfl⟩

theorem segOk_of_phSeq_nil {vals : List Value} {ts : List Tok}
    (h : phSeq ts = []) : SegOk vals ts vals := by
  refine ⟨⟨[], by simp⟩, by simp [h], ?_⟩
  intro n v hv
  have := mem_phSeq_of_ph hv
  simp [h] at this

theorem segOk_nil {vals : List Value} : SegOk vals [] vals :=
  segOk_of_phSeq_nil rfl

theorem segOk_s {vals : List Value} (t : String) : SegOk vals [Tok.s t] vals :=
  segOk_of_phSeq_nil rfl

theorem segOk_push {vals : List Value} (v : Value) :
    SegOk vals [Tok.ph (vals ++ [v]).length v] (vals ++ [v]) := by
  have hl : (vals ++ [v]).length = vals.length + 1 := by simp
  refine ⟨⟨[v], rfl⟩, ?_, ?_⟩
  · simp [phSeq, phIdx, hl, List.range'_one]
  · intro n w hw
    simp only [List.mem_singleton, Tok.ph.injEq] at hw
    obtain ⟨hn, hv⟩ := hw
    subst hn hv
    rw [hl]
    simpa using List.get?_concat_length vals w

theorem SegOk.append {a b c : List Value} {ts1 ts2 : List Tok}
    (h1 : SegOk a ts1 b) (h2 : SegOk b ts2 c) : SegOk a (ts1 ++ ts2) c := by
  obtain ⟨⟨d1, hd1⟩, hp1, hm1⟩ := h1
  obtain ⟨⟨d2, hd2⟩, hp2, hm2⟩ := h2
  have hbc : ∃ d, c = b ++ d := ⟨d2, hd2⟩
  refine ⟨⟨d1 ++ d2, by rw [hd2, hd1, List.append_assoc]⟩, ?_, ?_⟩
  · have hb : b.length = a.length + d1.length := by rw [hd1]; simp
    have hc : c.length = b.length + d2.length := by rw [hd2]; simp
    simp only [phSeq, List.filterMap_append] at *
    rw [hp1, hp2]
    have h1' : b.length - a.length = d1.length := by omega
    have h2' : c.length - b.length = d2.length := by omega
    have h3' : c.length - a.length = d2.length + d1.length := by omega
    rw [h1', h2', h3']
    have := List.range'_append_1 (a.length + 1) d1.length d2.length
    rw [show a.length + 1 + d1.length = b.length + 1 by omega] at this
    exact this
  · intro n v hv
    rcases List.mem_append.mp hv with h | h
    · have hb := hm1 n v h
      have hlt : n - 1 < b.length := (List.get?_eq_some.mp hb).1
      rw [hd2, List.get?_append hlt]
      exact hb
    · exact hm2 n v h

theorem SegOk.cons_s {a b : List Value} {ts : List Tok} (t : String)
    (h : SegOk a ts b) : SegOk a (Tok.s t :: ts) b :=
  (segOk_s t).append h

theorem SegOk.snoc_s {a b : List Value} {ts : List Tok} (t : String)
    (h : SegOk a ts b) : SegOk a (ts ++ [Tok.s t]) b :=
  h.append (segOk_s t)

/-- Chained segment invariant for a list of parts that are subsequently
joined by a separator. -/
def PartsOk : List Value → List (List Tok) → List Value → Prop
  | a, [], b => b = a
  | a, p :: ps, b => ∃ m, SegOk a p m ∧ PartsOk m ps b

theorem partsOk_joinSep {sep : String} :
    ∀ {ps : List (List Tok)} {a b : List Value}, PartsOk a ps b →
      SegOk a (joinSep sep ps) b
  | [], a, b, h => by
    subst h
    exact segOk_nil
  | [p], a, b, h => by
    obtain ⟨m, hm, hb⟩ := h
    cases hb
    exact hm
  | p :: q :: ps, a, b, h => by
    obtain ⟨m, hm, hrest⟩ := h
    have ih : SegOk m (joinSep sep (q :: ps)) b := partsOk_joinSep hrest
    exact hm.append (ih.cons_s sep)

theorem bindElems_spec :
    ∀ (elems : List Value) (vals : List Value),
      PartsOk vals (bindElems vals elems).1 (bindElems vals elems).2 ∧
        (bindElems vals elems).2 = vals ++ elems
  | [], vals => ⟨rfl, by simp [bindElems]⟩
  | v :: rest, vals => by
    have ih := bindElems_spec rest (vals ++ [v])
    simp only [bindElems]
    constructor
    · exact ⟨vals ++ [v], segOk_push v, ih.1⟩
    · rw [ih.2, List.append_assoc]
      rfl

theorem renderClause_segOk (vals : List Value) (c : WhereClause) :
    SegOk vals (renderClause vals c).1 (renderClause vals c).2 := by
  unfold renderClause
  dsimp only
  by_cases h1 : c.operator = .IN ∨ c.operator = .NOTIN
  · rw [if_pos h1]
    split
    · split
      · exact SegOk.cons_s _ ((partsOk_joinSep (bindElems_spec _ vals).1).snoc_s _)
      · exact segOk_of_phSeq_nil rfl
    · exact segOk_of_phSeq_nil rfl
  · rw [if_neg h1]
    by_cases h2 : c.operator = .IS ∨ c.operator = .ISNOT
    · rw [if_pos h2]
      exact segOk_of_phSeq_nil rfl
    · rw [if_neg h2]
      exact SegOk.cons_s _ (segOk_push c.value)

theorem buildWhereParts_partsOk :
    ∀ (cs : List WhereClause) (idx : Nat) (vals : List Value),
      PartsOk vals (buildWhereParts idx vals cs).1 (buildWhereParts idx vals cs).2
  | [], _, _ => rfl
  | c :: rest, idx, vals => by
    have hr := renderClause_segOk vals c
    have ih := buildWhereParts_partsOk rest (idx + 1) (renderClause vals c).2
    simp only [buildWhereParts]
    refine ⟨(renderClause vals c).2, ?_, ih⟩
    split
    · exact hr
    · exact hr.cons_s _

theorem buildWhere_segOk (cs : List WhereClause) (vals : List Value) :
    SegOk vals (buildWhere cs vals).1 (buildWhere cs vals).2 := by
  unfold buildWhere
  split
  · exact segOk_nil
  · exact SegOk.cons_s _ (partsOk_joinSep (buildWhereParts_partsOk cs 0 vals))

theorem bindKeys_spec :
    ∀ (keys : List String) (vals : List Value) (row : JSRecord),
      PartsOk vals (bindKeys vals row keys).1 (bindKeys vals row keys).2 ∧
        (bindKeys vals row keys).2 = vals ++ keys.map (lookupVal row)
  | [], vals, row => ⟨rfl, by simp [bindKeys]⟩
  | key :: rest, vals, row => by
    have ih := bindKeys_spec rest (vals ++ [lookupVal row key]) row
    simp only [bindKeys]
    constructor
    · exact ⟨vals ++ [lookupVal row key], segOk_push _, ih.1⟩
    · rw [ih.2, List.append_assoc]
      rfl

theorem insertRows_spec :
    ∀ (rows : List JSRecord) (vals : List Value) (keys : List String),
      PartsOk vals (insertRows vals keys rows).1 (insertRows vals keys rows).2 ∧
        (insertRows vals keys rows).2 =
          vals ++ (rows.map (fun row => keys.map (lookupVal row))).join
  | [], vals, keys => ⟨rfl, by simp [insertRows]⟩
  | row :: rest, vals, keys => by
    have hk := bindKeys_spec keys vals row
    have ih := insertRows_spec rest (bindKeys vals row keys).2 keys
    simp only [insertRows]
    constructor
    · refine ⟨(bindKeys vals row keys).2, ?_, ih.1⟩
      exact SegOk.cons_s _ ((partsOk_joinSep hk.1).snoc_s _)
    · rw [ih.2, hk.2, List.append_assoc]
      simp
  termination_by rows => rows.length

theorem setParts_spec :
    ∀ (keys : List String) (vals : List Value) (d : JsData),
      PartsOk vals (setParts vals d keys).1 (setParts vals d keys).2 ∧
        (setParts vals d keys).2 = vals ++ keys.map (dataLookup d)
  | [], vals, d => ⟨rfl, by simp [setParts]⟩
  | key :: rest, vals, d => by
    have ih := setParts_spec rest (vals ++ [dataLookup d key]) d
    simp only [setParts]
    constructor
    · exact ⟨vals ++ [dataLookup d key], SegOk.cons_s _ (segOk_push _), ih.1⟩
    · rw [ih.2, List.append_assoc]
      rfl

theorem toSQLT_segOk (qb : QueryBuilder) (ts : List Tok) (vs : List Value)
    (h : toSQLT qb = .ok (ts, vs)) : SegOk [] ts vs := by
  unfold toSQLT at h
  cases hop : qb._operation <;> rw [hop] at h <;> dsimp only at h
  · -- SELECT
    simp only [Except.ok.injEq, Prod.mk.injEq] at h
    obtain ⟨hts, hvs⟩ := h
    subst hts hvs
    exact SegOk.cons_s _ (SegOk.cons_s _
      ((buildWhere_segOk qb._where []).append ((segOk_s _).append (segOk_s _))))
  · -- INSERT
    split at h
    · exact absurd h (by simp)
    · split at h
      · exact absurd h (by simp)
      · rename_i d _
        split at h
        · exact absurd h (by simp)
        · rename_i firstRow restRows _
          split at h
          · exact absurd h (by simp)
          · simp only [Except.ok.injEq, Prod.mk.injEq] at h
            obtain ⟨hts, hvs⟩ := h
            subst hts hvs
            have hi := insertRows_spec (firstRow :: restRows) [] (firstRow.map Prod.fst)
            exact SegOk.cons_s _ ((partsOk_joinSep hi.1).snoc_s _)
  · -- UPDATE
    split at h
    · exact absurd h (by simp)
    · split at h
      · exact absurd h (by simp)
      · rename_i d _
        split at h
        · exact absurd h (by simp)
        · simp only [Except.ok.injEq, Prod.mk.injEq] at h
          obtain ⟨hts, hvs⟩ := h
          subst hts hvs
          have hs := setParts_spec (dataKeys d) [] d
          have hw := buildWhere_segOk qb._where (setParts [] d (dataKeys d)).2
          exact SegOk.cons_s _ (((partsOk_joinSep hs.1).append hw).snoc_s _)
  · -- DELETE
    split at h
    · exact absurd h (by simp)
    · simp only [Except.ok.injEq, Prod.mk.injEq] at h
      obtain ⟨hts, hvs⟩ := h
      subst hts hvs
      exact SegOk.cons_s _ ((buildWhere_segOk qb._where []).snoc_s _)

end Genless.V2

namespace Genless.V2

/-- Example builder for exercising the compiler:
`db.query("t").where({a: 1}).where({b: {in: [2, 3]}})`. -/
def exC1 : QueryBuilder :=
  whereCall (whereCall (newQB "t") [("a", .int 1)]) [("b", .obj [("in", .arr [.int 2, .int 3])])]

/-- C1: every successful `toSQL()` emits its bound-parameter placeholders as
`$1, $2, ...` numbered by one single 1-based counter global across the whole
statement; the number of placeholders equals the length of the returned
values list; and the placeholder `$k` carries exactly the value at position
`k - 1` of the values list, the list being populated in binding order. -/
theorem claim1_placeholders_global (qb : QueryBuilder) (r : SQLResult)
    (h : toSQL qb = .ok r) :
    ∃ ts, toSQLT qb = .ok (ts, r.values) ∧
      renderToks ts = r.sql ∧
      phSeq ts = List.range' 1 r.values.length ∧
      (phSeq ts).length = r.values.length ∧
      ∀ n v, Tok.ph n v ∈ ts → r.values.get? (n - 1) = some v := by
  cases ht : toSQLT qb with
  | error e =>
    unfold toSQL at h
    rw [ht] at h
    exact absurd h (by simp)
  | ok p =>
    obtain ⟨ts, vals⟩ := p
    unfold toSQL at h
    rw [ht] at h
    dsimp only at h
    cases h
    obtain ⟨-, hp, hm⟩ := toSQLT_segOk qb ts vals ht
    refine ⟨ts, rfl, rfl, ?_, ?_, hm⟩
    · simpa using hp
    · have : phSeq ts = List.range' 1 vals.length := by simpa using hp
      rw [this, List.length_range']

/-- Witness for C1 at the concrete builder `exC1`. -/
theorem claim1_placeholders_global_witness :
    ∃ ts, toSQLT exC1 = .ok (ts, [Value.int 1, Value.int 2, Value.int 3]) ∧
      renderToks ts = "SELECT * FROM \"t\" WHERE \"a\" = $1 AND \"b\" IN ($2, $3)" ∧
      phSeq ts = List.range' 1 3 ∧
      (phSeq ts).length = 3 ∧
      ∀ n v, Tok.ph n v ∈ ts →
        [Value.int 1, Value.int 2, Value.int 3].get? (n - 1) = some v :=
  claim1_placeholders_global exC1
    ⟨"SELECT * FROM \"t\" WHERE \"a\" = $1 AND \"b\" IN ($2, $3)",
      [Value.int 1, Value.int 2, Value.int 3]⟩ rfl

/-- Example builder for the determinism claim:
`db.query("users").where({id: 7}).limit(10)`. -/
def exC9 : QueryBuilder := limitCall (whereCall (newQB "users") [("id", .int 7)]) 10

/-- C9: `toSQL()` is deterministic and idempotent — two invocations on the
same unmodified builder state produce byte-identical SQL text and
element-wise identical parameter lists.  (In this embedding `toSQL` is a
pure function of the captured state and returns no modified state, mirroring
the source, which only reads `this` and writes a fresh local `values`
array.) -/
theorem claim9_toSQL_deterministic (qb : QueryBuilder) (r1 r2 : SQLResult)
    (h1 : toSQL qb = .ok r1) (h2 : toSQL qb = .ok r2) :
    r1.sql = r2.sql ∧ r1.values = r2.values := by
  rw [h1] at h2
  cases h2
  exact ⟨rfl, rfl⟩

/-- Witness for C9 at the concrete builder `exC9`. -/
theorem claim9_toSQL_deterministic_witness :
    ("SELECT * FROM \"users\" WHERE \"id\" = $1 LIMIT 10" = "SELECT * FROM \"users\" WHERE \"id\" = $1 LIMIT 10" ∧
      [Value.int 7] = [Value.int 7]) :=
  claim9_toSQL_deterministic exC9
    ⟨"SELECT * FROM \"users\" WHERE \"id\" = $1 LIMIT 10", [Value.int 7]⟩
    ⟨"SELECT * FROM \"users\" WHERE \"id\" = $1 LIMIT 10", [Value.int 7]⟩
    rfl rfl

end Genless.V2

namespace Genless.V2

/-- The build-time error condition exactly as the claim lists it: a join on
a non-SELECT statement, INSERT with an absent payload, INSERT with an empty
payload sequence, INSERT whose first record has zero keys, UPDATE with an
absent payload, or UPDATE whose payload has zero keys.  This is a
comparison definition written from the specification's words, to be proved
equivalent to the behaviour of `toSQL`. -/
def claimedBuildError (qb : QueryBuilder) : Bool :=
  ((qb._operation == .INSERT || qb._operation == .UPDATE || qb._operation == .DELETE) &&
      !qb._joins.isEmpty) ||
  (qb._operation == .INSERT &&
    (match qb._data with
     | none => true
     | some d =>
       match dataIn d with
       | [] => true
       | r :: _ => (r.map Prod.fst).isEmpty)) ||
  (qb._operation == .UPDATE &&
    (match qb._data with
     | none => true
     | some d => (dataKeys d).isEmpty))

theorem toSQL_error_iff_toSQLT (qb : QueryBuilder) :
    (∃ e, toSQL qb = .error e) ↔ (∃ e, toSQLT qb = .error e) := by
  unfold toSQL
  cases ht : toSQLT qb with
  | ok p => simp
  | error e => simp

theorem toSQLT_error_iff (qb : QueryBuilder) :
    (∃ e, toSQLT qb = .error e) ↔ claimedBuildError qb = true := by
  unfold toSQLT claimedBuildError
  cases hop : qb._operation <;> dsimp only
  · -- SELECT
    simp
  · -- INSERT
    cases hj : qb._joins with
    | cons j js => simp
    | nil =>
      cases hd : qb._data with
      | none => simp
      | some d =>
        cases hdi : dataIn d with
        | nil => simp [hdi]
        | cons r rest =>
          cases hr : r with
          | nil => simp [hdi, hr]
          | cons p ps => simp [hdi, hr]
  · -- UPDATE
    cases hj : qb._joins with
    | cons j js => simp
    | nil =>
      cases hd : qb._data with
      | none => simp
      | some d =>
        cases hdk : dataKeys d with
        | nil => simp [hdk]
        | cons k ks => simp [hdk]
  · -- DELETE
    cases hj : qb._joins with
    | cons j js => simp
    | nil => simp

/-- A builder state in the INSERT error region: operation INSERT with no
payload attached. -/
def exC2 : QueryBuilder := { _table := "t", _operation := .INSERT }

/-- C2: `toSQL()` raises a synchronous build-time error exactly when one of
the listed conditions holds (INSERT absent/empty payload or zero-key first
record, UPDATE absent/zero-key payload, a join on INSERT/UPDATE/DELETE);
otherwise it returns a complete `{sql, values}` result; and when it raises,
no partial text or parameter fragment is returned to the caller. -/
theorem claim2_build_error_iff (qb : QueryBuilder) :
    ((∃ e, toSQL qb = .error e) ↔ claimedBuildError qb = true) ∧
    (claimedBuildError qb = false → ∃ r, toSQL qb = .ok r) ∧
    (∀ e r, toSQL qb = .error e → toSQL qb ≠ .ok r) := by
  have hiff := (toSQL_error_iff_toSQLT qb).trans (toSQLT_error_iff qb)
  refine ⟨hiff, ?_, ?_⟩
  · intro hf
    cases ho : toSQL qb with
    | ok r => exact ⟨r, rfl⟩
    | error e =>
      have : claimedBuildError qb = true := hiff.mp ⟨e, ho⟩
      rw [hf] at this
      cases this
  · intro e r he hok
    rw [he] at hok
    exact absurd hok (by simp)

/-- Witness for C2: the INSERT-without-payload state raises, is flagged by
the claimed error condition, and satisfies the equivalence. -/
theorem claim2_build_error_iff_witness :
    toSQL exC2 = .error "No data provided for INSERT" ∧
    claimedBuildError exC2 = true ∧
    ((∃ e, toSQL exC2 = .error e) ↔ claimedBuildError exC2 = true) :=
  ⟨rfl, rfl, (claim2_build_error_iff exC2).1⟩

end Genless.V2

namespace Genless.V2

theorem string_foldl_append (a : String) (l : List String) :
    List.foldl (fun r s => r ++ s) a l = a ++ List.foldl (fun r s => r ++ s) "" l := by
  induction l generalizing a with
  | nil => simp
  | cons x xs ih =>
    simp only [List.foldl_cons]
    rw [ih (a ++ x), ih ("" ++ x), String.empty_append, String.append_assoc]

theorem renderToks_cons (t : Tok) (ts : List Tok) :
    renderToks (t :: ts) = t.render ++ renderToks ts := by
  unfold renderToks String.join
  simp only [List.map_cons, List.foldl_cons]
  rw [string_foldl_append, String.empty_append]

theorem renderToks_singleton (t : Tok) : renderToks [t] = t.render := by
  rw [renderToks_cons]
  exact String.append_empty _

theorem renderToks_append (a b : List Tok) :
    renderToks (a ++ b) = renderToks a ++ renderToks b := by
  induction a with
  | nil => rfl
  | cons t ts ih =>
    rw [List.cons_append, renderToks_cons, renderToks_cons, ih, String.append_assoc]

theorem string_intercalate_go_append (x y s : String) (l : List String) :
    String.intercalate.go (x ++ y) s l = x ++ String.intercalate.go y s l := by
  induction l generalizing y with
  | nil => rfl
  | cons a as ih =>
    show String.intercalate.go (x ++ y ++ s ++ a) s as = x ++ String.intercalate.go (y ++ s ++ a) s as
    rw [String.append_assoc (x ++ y) s a, String.append_assoc x y (s ++ a), ih,
      String.append_assoc y s a]

theorem string_intercalate_cons_cons (s a b : String) (l : List String) :
    String.intercalate s (a :: b :: l) = a ++ s ++ String.intercalate s (b :: l) := by
  show String.intercalate.go a s (b :: l) = a ++ s ++ String.intercalate.go b s l
  show String.intercalate.go (a ++ s ++ b) s l = a ++ s ++ String.intercalate.go b s l
  rw [string_intercalate_go_append (a ++ s) b s l]

/-- The expected placeholder texts `$s, $(s+1), ...` (`n` of them): the
specification's description of a consecutively numbered placeholder run. -/
def phStrs (s n : Nat) : List String :=
  (List.range' s n).map (fun k => "$" ++ toString k)

theorem phStrs_succ (s n : Nat) :
    phStrs s (n + 1) = ("$" ++ toString s) :: phStrs (s + 1) n := by
  simp [phStrs, List.range'_succ]

theorem renderToks_joinSep_bindElems :
    ∀ (elems : List Value) (vals : List Value), elems ≠ [] →
      renderToks (joinSep ", " (bindElems vals elems).1) =
        String.intercalate ", " (phStrs (vals.length + 1) elems.length)
  | [], _, h => absurd rfl h
  | [v], vals, _ => by
    show renderToks [Tok.ph (vals ++ [v]).length v] =
      String.intercalate ", " (phStrs (vals.length + 1) 1)
    rw [renderToks_singleton]
    show "$" ++ toString (vals ++ [v]).length = _
    have hlen : (vals ++ [v]).length = vals.length + 1 := by simp
    rw [hlen]
    rfl
  | v :: w :: rest, vals, _ => by
    have ih := renderToks_joinSep_bindElems (w :: rest) (vals ++ [v]) (by simp)
    show renderToks ([Tok.ph (vals ++ [v]).length v] ++
        (Tok.s ", " :: joinSep ", " (bindElems (vals ++ [v]) (w :: rest)).1)) = _
    rw [renderToks_append, renderToks_singleton, renderToks_cons, ih]
    have hlen : (vals ++ [v]).length = vals.length + 1 := by simp
    rw [hlen]
    rw [show (v :: w :: rest).length = (w :: rest).length + 1 from rfl]
    rw [phStrs_succ (vals.length + 1) (w :: rest).length]
    rw [show (w :: rest).length = rest.length + 1 from rfl]
    rw [phStrs_succ (vals.length + 1 + 1) rest.length]
    rw [string_intercalate_cons_cons]
    rw [← String.append_assoc]
    rfl

end Genless.V2

namespace Genless.V2

/-- C3: for a filter clause with operator `IN`/`NOT IN` whose value is a
non-empty sequence, the compiler emits `<col> <OP> ($i, ..., $j)` with one
placeholder per element, binding each element as its own parameter in
sequence order; for an empty sequence it emits the tautology `1=0` (`IN`)
or `1=1` (`NOT IN`) and binds nothing, and this degenerate case is not an
error (witnessed by the compiled empty-`in` SELECT in the last conjunct). -/
theorem claim3_in_notIn_rendering (vals : List Value) (conn : Connective) (col : String)
    (op : WhereOperator) (elems : List Value) (hop : op = .IN ∨ op = .NOTIN) :
    (elems ≠ [] →
      (renderClause vals ⟨conn, col, op, .arr elems⟩).2 = vals ++ elems ∧
      renderToks (renderClause vals ⟨conn, col, op, .arr elems⟩).1 =
        _quote col ++ " " ++ opText op ++ " (" ++
          String.intercalate ", " (phStrs (vals.length + 1) elems.length) ++ ")") ∧
    (elems = [] →
      renderClause vals ⟨conn, col, op, .arr elems⟩ =
        ([Tok.s (if op = .IN then "1=0" else "1=1")], vals)) ∧
    toSQL (whereCall (newQB "t") [("status", .obj [("in", .arr [])])]) =
      .ok ⟨"SELECT * FROM \"t\" WHERE 1=0", []⟩ := by
  refine ⟨?_, ?_, rfl⟩
  · intro he
    have hlen : elems.length > 0 := List.length_pos.mpr he
    have hred : renderClause vals ⟨conn, col, op, .arr elems⟩ =
        (Tok.s (_quote col ++ " " ++ opText op ++ " (") ::
          (joinSep ", " (bindElems vals elems).1 ++ [Tok.s ")"]),
          (bindElems vals elems).2) := by
      unfold renderClause
      dsimp only
      rw [if_pos hop, if_pos hlen]
    constructor
    · rw [hred]
      exact (bindElems_spec elems vals).2
    · rw [hred]
      show renderToks (Tok.s (_quote col ++ " " ++ opText op ++ " (") ::
        (joinSep ", " (bindElems vals elems).1 ++ [Tok.s ")"])) = _
      rw [renderToks_cons, renderToks_append, renderToks_singleton,
        renderToks_joinSep_bindElems elems vals he]
      show _quote col ++ " " ++ opText op ++ " (" ++
          (String.intercalate ", " (phStrs (vals.length + 1) elems.length) ++ ")") = _
      simp [String.append_assoc]
  · intro he
    subst he
    rcases hop with h | h <;> subst h <;> rfl

/-- Witness for C3: `{status: {in: ['a', 'b']}}` rendered from an empty
parameter list. -/
theorem claim3_in_notIn_rendering_witness :
    (renderClause [] ⟨.AND, "status", .IN, .arr [.str "a", .str "b"]⟩).2 =
      [Value.str "a", Value.str "b"] ∧
    renderToks (renderClause [] ⟨.AND, "status", .IN, .arr [.str "a", .str "b"]⟩).1 =
      _quote "status" ++ " " ++ opText .IN ++ " (" ++
        String.intercalate ", " (phStrs 1 2) ++ ")" :=
  (claim3_in_notIn_rendering [] .AND "status" .IN [.str "a", .str "b"]
    (Or.inl rfl)).1 (by simp)

end Genless.V2

namespace Genless.V2

/-- The expected `VALUES` tuple texts of a bulk insert: `n` parenthesized
runs of `k` consecutively numbered placeholders starting at `$s` — the
specification's description of per-record tuples bound in column order
within record order. -/
def chunkTuples (s k : Nat) : Nat → List String
  | 0 => []
  | n + 1 =>
    ("(" ++ String.intercalate ", " (phStrs s k) ++ ")") :: chunkTuples (s + k) k n

theorem renderToks_joinSep_bindKeys :
    ∀ (keys : List String) (vals : List Value) (row : JSRecord),
      renderToks (joinSep ", " (bindKeys vals row keys).1) =
        String.intercalate ", " (phStrs (vals.length + 1) keys.length)
  | [], _, _ => rfl
  | [key], vals, row => by
    show renderToks [Tok.ph (vals ++ [lookupVal row key]).length (lookupVal row key)] =
      String.intercalate ", " (phStrs (vals.length + 1) 1)
    rw [renderToks_singleton]
    show "$" ++ toString (vals ++ [lookupVal row key]).length = _
    have hlen : (vals ++ [lookupVal row key]).length = vals.length + 1 := by simp
    rw [hlen]
    rfl
  | k1 :: k2 :: rest, vals, row => by
    have ih := renderToks_joinSep_bindKeys (k2 :: rest) (vals ++ [lookupVal row k1]) row
    show renderToks ([Tok.ph (vals ++ [lookupVal row k1]).length (lookupVal row k1)] ++
        (Tok.s ", " :: joinSep ", " (bindKeys (vals ++ [lookupVal row k1]) row (k2 :: rest)).1)) = _
    rw [renderToks_append, renderToks_singleton, renderToks_cons, ih]
    have hlen : (vals ++ [lookupVal row k1]).length = vals.length + 1 := by simp
    rw [hlen]
    rw [show (k1 :: k2 :: rest).length = (k2 :: rest).length + 1 from rfl]
    rw [phStrs_succ (vals.length + 1) (k2 :: rest).length]
    rw [show (k2 :: rest).length = rest.length + 1 from rfl]
    rw [phStrs_succ (vals.length + 1 + 1) rest.length]
    rw [string_intercalate_cons_cons]
    rw [← String.append_assoc]
    rfl

theorem renderToks_joinSep_insertRows :
    ∀ (rows : List JSRecord) (vals : List Value) (keys : List String),
      renderToks (joinSep ", " (insertRows vals keys rows).1) =
        String.intercalate ", " (chunkTuples (vals.length + 1) keys.length rows.length)
  | [], _, _ => rfl
  | [row], vals, keys => by
    show renderToks (Tok.s "(" :: (joinSep ", " (bindKeys vals row keys).1 ++ [Tok.s ")"])) =
      String.intercalate ", " (chunkTuples (vals.length + 1) keys.length 1)
    rw [renderToks_cons, renderToks_append, renderToks_singleton,
      renderToks_joinSep_bindKeys keys vals row]
    show "(" ++ (String.intercalate ", " (phStrs (vals.length + 1) keys.length) ++ ")") = _
    rw [← String.append_assoc]
    rfl
  | row1 :: row2 :: rest, vals, keys => by
    have hk := bindKeys_spec keys vals row1
    have ih := renderToks_joinSep_insertRows (row2 :: rest) (bindKeys vals row1 keys).2 keys
    have hvlen : (bindKeys vals row1 keys).2.length = vals.length + keys.length := by
      rw [hk.2]
      simp
    rw [hvlen] at ih
    show renderToks ((Tok.s "(" :: (joinSep ", " (bindKeys vals row1 keys).1 ++ [Tok.s ")"])) ++
        (Tok.s ", " :: joinSep ", " (insertRows (bindKeys vals row1 keys).2 keys (row2 :: rest)).1)) = _
    rw [renderToks_append, renderToks_cons, renderToks_append, renderToks_singleton,
      renderToks_cons, renderToks_joinSep_bindKeys keys vals row1, ih]
    have harith : vals.length + keys.length + 1 = vals.length + 1 + keys.length := by omega
    rw [harith]
    rw [show (row2 :: rest).length = rest.length + 1 from rfl]
    rw [show chunkTuples (vals.length + 1 + keys.length) keys.length (rest.length + 1) =
          ("(" ++ String.intercalate ", " (phStrs (vals.length + 1 + keys.length) keys.length) ++ ")") ::
            chunkTuples (vals.length + 1 + keys.length + keys.length) keys.length rest.length
        from rfl]
    rw [show (row1 :: row2 :: rest).length = rest.length + 1 + 1 from rfl]
    rw [show chunkTuples (vals.length + 1) keys.length (rest.length + 1 + 1) =
          ("(" ++ String.intercalate ", " (phStrs (vals.length + 1) keys.length) ++ ")") ::
          ("(" ++ String.intercalate ", " (phStrs (vals.length + 1 + keys.length) keys.length) ++ ")") ::
            chunkTuples (vals.length + 1 + keys.length + keys.length) keys.length rest.length
        from rfl]
    rw [string_intercalate_cons_cons]
    simp only [String.append_assoc]
    rfl

end Genless.V2

namespace Genless.V2

/-- C4: for every INSERT with a non-empty payload, the compiled text is
`INSERT INTO <table> (<cols>) VALUES (<tuple>), ...` where the column list
is exactly the keys of the first record in that record's own key order,
there is one tuple per record, every element is bound in column order
within record order, and `RETURNING *` is appended whenever the returning
flag is set; the `insert()` builder method always sets that flag. -/
theorem claim4_insert_rendering (qb : QueryBuilder) (d : JsData)
    (firstRow : JSRecord) (restRows : List JSRecord)
    (hop : qb._operation = .INSERT) (hj : qb._joins = [])
    (hd : qb._data = some d) (hrows : dataIn d = firstRow :: restRows)
    (hkeys : firstRow.map Prod.fst ≠ []) :
    toSQL qb = .ok
      ⟨"INSERT INTO " ++ _quote qb._table ++ " (" ++
          String.intercalate ", " ((firstRow.map Prod.fst).map _quote) ++ ") VALUES " ++
          String.intercalate ", "
            (chunkTuples 1 (firstRow.map Prod.fst).length (firstRow :: restRows).length) ++
          (if qb._returning then " RETURNING *" else ""),
        ((firstRow :: restRows).map
          (fun row => (firstRow.map Prod.fst).map (lookupVal row))).join⟩ ∧
    (∀ (qb' : QueryBuilder) (data : JsData),
      (insert qb' data)._returning = true ∧ (insert qb' data)._operation = .INSERT) := by
  refine ⟨?_, fun qb' data => ⟨rfl, rfl⟩⟩
  have hklen : ¬((firstRow.map Prod.fst).length = 0) := by
    simpa [List.length_eq_zero] using hkeys
  have ht : toSQLT qb = .ok
      (Tok.s ("INSERT INTO " ++ _quote qb._table ++ " (" ++
          String.intercalate ", " ((firstRow.map Prod.fst).map _quote) ++ ") VALUES ") ::
        (joinSep ", " (insertRows [] (firstRow.map Prod.fst) (firstRow :: restRows)).1 ++
          [Tok.s (if qb._returning then " RETURNING *" else "")]),
       (insertRows [] (firstRow.map Prod.fst) (firstRow :: restRows)).2) := by
    unfold toSQLT
    rw [hop]
    dsimp only
    rw [hj]
    rw [if_neg (by simp)]
    rw [hd]
    dsimp only
    rw [hrows]
    dsimp only
    rw [if_neg hklen]
    rfl
  unfold toSQL
  rw [ht]
  dsimp only
  congr 1
  refine congrArg₂ SQLResult.mk ?_ ?_
  · rw [renderToks_cons, renderToks_append, renderToks_singleton,
      renderToks_joinSep_insertRows (firstRow :: restRows) [] (firstRow.map Prod.fst)]
    show "INSERT INTO " ++ _quote qb._table ++ " (" ++
        String.intercalate ", " ((firstRow.map Prod.fst).map _quote) ++ ") VALUES " ++
        (String.intercalate ", "
          (chunkTuples ((List.length ([] : List Value)) + 1) (firstRow.map Prod.fst).length
            (firstRow :: restRows).length) ++
          (if qb._returning then " RETURNING *" else "")) = _
    rw [show (List.length ([] : List Value)) + 1 = 1 from rfl]
    simp only [String.append_assoc]
  · have := (insertRows_spec (firstRow :: restRows) [] (firstRow.map Prod.fst)).2
    rw [this]
    rfl

/-- Witness for C4: the bulk insert `insert([{a:1, b:2}, {a:3, b:4}])` on
table `t`. -/
theorem claim4_insert_rendering_witness :
    toSQL (insert (newQB "t")
        (.many [[("a", .int 1), ("b", .int 2)], [("a", .int 3), ("b", .int 4)]])) =
      .ok ⟨"INSERT INTO \"t\" (\"a\", \"b\") VALUES ($1, $2), ($3, $4) RETURNING *",
        [.int 1, .int 2, .int 3, .int 4]⟩ ∧
    (insert (newQB "t")
        (.many [[("a", .int 1), ("b", .int 2)], [("a", .int 3), ("b", .int 4)]]))._returning = true :=
  ⟨(claim4_insert_rendering
      (insert (newQB "t")
        (.many [[("a", .int 1), ("b", .int 2)], [("a", .int 3), ("b", .int 4)]]))
      (.many [[("a", .int 1), ("b", .int 2)], [("a", .int 3), ("b", .int 4)]])
      [("a", .int 1), ("b", .int 2)] [[("a", .int 3), ("b", .int 4)]]
      rfl rfl rfl rfl (by simp)).1,
    rfl⟩

end Genless.V2

namespace Genless.V2

theorem opChain_eq_filterMap (conn : Connective) (key : String) (ov : Value) :
    ∀ pairs : List (String × WhereOperator),
      pairs.foldr (fun q acc =>
        (if jsIn q.1 ov then [(⟨conn, key, q.2, jsGet q.1 ov⟩ : WhereClause)] else []) ++ acc)
        [] =
      pairs.filterMap (fun q =>
        if jsIn q.1 ov then some ⟨conn, key, q.2, jsGet q.1 ov⟩ else none)
  | [] => rfl
  | q :: rest => by
    have ih := opChain_eq_filterMap conn key ov rest
    simp only [List.foldr_cons, List.filterMap_cons]
    cases h : jsIn q.1 ov with
    | true => simp [h, ih]
    | false => simp [h, ih]

/-- The fixed key-check order and the operator each recognized key maps to,
as the specification lists them. -/
def opKeyTable : List (String × WhereOperator) :=
  [("in", .IN), ("notIn", .NOTIN), ("like", .LIKE), ("ilike", .ILIKE),
   ("gt", .GT), ("lt", .LT), ("gte", .GE), ("lte", .LE), ("not", .NE)]

theorem opClauses_eq_filterMap (conn : Connective) (key : String) (ov : Value) :
    opClauses conn key ov =
      opKeyTable.filterMap (fun q =>
        if jsIn q.1 ov then some ⟨conn, key, q.2, jsGet q.1 ov⟩ else none) := by
  rw [← opChain_eq_filterMap conn key ov opKeyTable]
  simp [opClauses, opKeyTable]

/-- C6: each entry of a `where`/`orWhere` condition object expands as the
claim states — a keyed-operator object contributes one clause per
recognized key present, checked in the fixed order
`in, notIn, like, ilike, gt, lt, gte, lte, not` and mapped respectively to
`IN, NOT IN, LIKE, ILIKE, >, <, >=, <=, !=`, with unrecognized keys
ignored; a `null` entry contributes one `IS null` clause; any other entry
contributes one `=` clause with the value as given; and the clauses of a
call are appended to the stored filter list in entry order with the
connective of the call. -/
theorem claim6_addWhere_expansion :
    (∀ (qb : QueryBuilder) (conds : List (String × Value)),
      (whereCall qb conds)._where = qb._where ++ clausesOf .AND conds ∧
      (orWhereCall qb conds)._where = qb._where ++ clausesOf .OR conds) ∧
    (∀ (conn : Connective) (key : String) (fields : List (String × Value)),
      entryClauses conn key (.obj fields) =
        opKeyTable.filterMap (fun q =>
          if jsIn q.1 (Value.obj fields) then
            some ⟨conn, key, q.2, jsGet q.1 (Value.obj fields)⟩
          else none)) ∧
    (∀ conn key, entryClauses conn key .vnull = [⟨conn, key, .IS, .vnull⟩]) ∧
    (∀ conn key s, entryClauses conn key (.str s) = [⟨conn, key, .EQ, .str s⟩]) ∧
    (∀ conn key n, entryClauses conn key (.int n) = [⟨conn, key, .EQ, .int n⟩]) ∧
    (∀ conn key b, entryClauses conn key (.bool b) = [⟨conn, key, .EQ, .bool b⟩]) ∧
    (∀ conn key t, entryClauses conn key (.date t) = [⟨conn, key, .EQ, .date t⟩]) ∧
    (∀ conn key, entryClauses conn key .undef = [⟨conn, key, .EQ, .undef⟩]) :=
  ⟨fun qb conds => ⟨rfl, rfl⟩,
   fun conn key fields => opClauses_eq_filterMap conn key (.obj fields),
   fun conn key => rfl,
   fun conn key s => rfl,
   fun conn key n => rfl,
   fun conn key b => rfl,
   fun conn key t => rfl,
   fun conn key => rfl⟩

end Genless.V2

namespace Genless.V2

theorem entryClauses_type (conn : Connective) (k : String) (v : Value) (c : WhereClause)
    (h : c ∈ entryClauses conn k v) : c.type = conn := by
  cases v with
  | vnull =>
    rw [List.mem_singleton.mp h]
  | undef => rw [List.mem_singleton.mp h]
  | str s => rw [List.mem_singleton.mp h]
  | int n => rw [List.mem_singleton.mp h]
  | bool b => rw [List.mem_singleton.mp h]
  | date ms => rw [List.mem_singleton.mp h]
  | arr elems => exact absurd h (by simp [entryClauses, opClauses, jsIn])
  | obj fields =>
    have h' : c ∈ opClauses conn k (.obj fields) := h
    rw [opClauses_eq_filterMap] at h'
    obtain ⟨q, -, hf⟩ := List.mem_filterMap.mp h'
    by_cases hj : jsIn q.1 (Value.obj fields)
    · rw [if_pos hj, Option.some.injEq] at hf
      rw [← hf]
    · rw [if_neg hj] at hf
      cases hf

theorem clausesOf_type (conn : Connective) :
    ∀ (conds : List (String × Value)) (c : WhereClause),
      c ∈ clausesOf conn conds → c.type = conn
  | [], c, h => absurd h (by simp [clausesOf])
  | (k, v) :: rest, c, h => by
    rcases List.mem_append.mp h with h' | h'
    · exact entryClauses_type conn k v c h'
    · exact clausesOf_type conn rest c h'

theorem joinSep_snoc (sep : String) :
    ∀ (ps : List (List Tok)) (p : List Tok), ps ≠ [] →
      joinSep sep (ps ++ [p]) = joinSep sep ps ++ (Tok.s sep :: p)
  | [], _, h => absurd rfl h
  | [p0], p, _ => rfl
  | p0 :: p1 :: ps, p, _ => by
    have ih := joinSep_snoc sep (p1 :: ps) p (by simp)
    show p0 ++ (Tok.s sep :: joinSep sep ((p1 :: ps) ++ [p])) =
      (p0 ++ (Tok.s sep :: joinSep sep (p1 :: ps))) ++ (Tok.s sep :: p)
    rw [ih, List.append_assoc]
    rfl

theorem buildWhereParts_snoc :
    ∀ (cs : List WhereClause) (c : WhereClause) (idx : Nat) (vals : List Value),
      idx + cs.length ≥ 1 →
      buildWhereParts idx vals (cs ++ [c]) =
        ((buildWhereParts idx vals cs).1 ++
          [Tok.s (connText c.type ++ " ") :: (renderClause (buildWhereParts idx vals cs).2 c).1],
         (renderClause (buildWhereParts idx vals cs).2 c).2)
  | [], c, idx, vals, h => by
    have hidx : ¬(idx = 0) := by
      simp only [List.length_nil] at h
      omega
    simp only [List.nil_append, buildWhereParts]
    rw [if_neg hidx]
  | c0 :: rest, c, idx, vals, h => by
    have ih := buildWhereParts_snoc rest c (idx + 1) (renderClause vals c0).2
      (by simp only [List.length_cons] at h ⊢; omega)
    simp only [List.cons_append, List.append_eq, buildWhereParts]
    rw [ih]

theorem buildWhere_snoc (cs : List WhereClause) (c : WhereClause) (vals : List Value)
    (h : cs ≠ []) :
    renderToks (buildWhere (cs ++ [c]) vals).1 =
      renderToks (buildWhere cs vals).1 ++ " " ++ connText c.type ++ " " ++
        renderToks (renderClause (buildWhere cs vals).2 c).1 ∧
    (buildWhere (cs ++ [c]) vals).2 = (renderClause (buildWhere cs vals).2 c).2 := by
  obtain ⟨c0, cs', rfl⟩ : ∃ c0 cs', cs = c0 :: cs' := by
    cases cs with
    | nil => exact absurd rfl h
    | cons a l => exact ⟨a, l, rfl⟩
  have hsn := buildWhereParts_snoc (c0 :: cs') c 0 vals (by simp)
  have hne : (buildWhereParts 0 vals (c0 :: cs')).1 ≠ [] := by
    simp only [buildWhereParts]
    simp
  unfold buildWhere
  rw [if_neg (by simp), if_neg (by simp)]
  rw [hsn]
  dsimp only
  rw [joinSep_snoc " " _ _ hne]
  refine ⟨?_, rfl⟩
  rw [renderToks_cons, renderToks_append, renderToks_cons, renderToks_cons]
  show " WHERE " ++ (renderToks (joinSep " " (buildWhereParts 0 vals (c0 :: cs')).1) ++
      (" " ++ ((connText c.type ++ " ") ++
        renderToks (renderClause (buildWhereParts 0 vals (c0 :: cs')).2 c).1))) = _
  rw [renderToks_cons (Tok.s " WHERE ")]
  simp only [String.append_assoc]
  rfl

/-- C7: every clause carries the connective of the `where`/`orWhere` call
that produced it; at render time the first clause's stored connective is
ignored (changing it does not change the output), every later clause is
prefixed with its own stored connective, and appending a clause extends the
rendered chain flat on the right — a left-associative, unparenthesized
boolean chain with no grouping. -/
theorem claim7_connective_chain :
    (∀ (qb : QueryBuilder) (conds : List (String × Value)) (c : WhereClause),
      c ∈ (whereCall qb conds)._where → c ∈ qb._where ∨ c.type = .AND) ∧
    (∀ (qb : QueryBuilder) (conds : List (String × Value)) (c : WhereClause),
      c ∈ (orWhereCall qb conds)._where → c ∈ qb._where ∨ c.type = .OR) ∧
    (∀ (t : Connective) (vals : List Value) (c : WhereClause) (rest : List WhereClause),
      buildWhere ({ c with type := t } :: rest) vals = buildWhere (c :: rest) vals) ∧
    (∀ (cs : List WhereClause) (c : WhereClause) (vals : List Value), cs ≠ [] →
      renderToks (buildWhere (cs ++ [c]) vals).1 =
        renderToks (buildWhere cs vals).1 ++ " " ++ connText c.type ++ " " ++
          renderToks (renderClause (buildWhere cs vals).2 c).1 ∧
      (buildWhere (cs ++ [c]) vals).2 = (renderClause (buildWhere cs vals).2 c).2) := by
  refine ⟨?_, ?_, ?_, buildWhere_snoc⟩
  · intro qb conds c h
    rcases List.mem_append.mp h with h' | h'
    · exact Or.inl h'
    · exact Or.inr (clausesOf_type .AND conds c h')
  · intro qb conds c h
    rcases List.mem_append.mp h with h' | h'
    · exact Or.inl h'
    · exact Or.inr (clausesOf_type .OR conds c h')
  · intro t vals c rest
    rfl

/-- Witness for C7: a clause produced by `where({a: 1})` carries `AND`, and
appending an `OR` clause to a one-clause chain extends the rendered text
flat on the right. -/
theorem claim7_connective_chain_witness :
    ((⟨.AND, "a", .EQ, .int 1⟩ : WhereClause) ∈ (newQB "t")._where ∨
      (⟨.AND, "a", .EQ, .int 1⟩ : WhereClause).type = .AND) ∧
    (renderToks (buildWhere ([⟨.AND, "a", .EQ, .int 1⟩] ++ [⟨.OR, "b", .EQ, .int 2⟩]) []).1 =
      renderToks (buildWhere [⟨.AND, "a", .EQ, .int 1⟩] []).1 ++ " " ++ connText .OR ++ " " ++
        renderToks (renderClause (buildWhere [⟨.AND, "a", .EQ, .int 1⟩] []).2
          ⟨.OR, "b", .EQ, .int 2⟩).1 ∧
     (buildWhere ([⟨.AND, "a", .EQ, .int 1⟩] ++ [⟨.OR, "b", .EQ, .int 2⟩]) []).2 =
       (renderClause (buildWhere [⟨.AND, "a", .EQ, .int 1⟩] []).2 ⟨.OR, "b", .EQ, .int 2⟩).2) :=
  ⟨claim7_connective_chain.1 (newQB "t") [("a", .int 1)] ⟨.AND, "a", .EQ, .int 1⟩
      (List.mem_singleton.mpr rfl),
   claim7_connective_chain.2.2.2 [⟨.AND, "a", .EQ, .int 1⟩] ⟨.OR, "b", .EQ, .int 2⟩ []
      (by simp)⟩

end Genless.V2

namespace Genless.V1

/-- C8: for a filter clause with operator `IS` or `IS NOT` the compiler
renders the literal `NULL` (null value) or the stringified value directly
into the SQL text and binds no parameter for the clause; in particular
`where({x: null})` on a SELECT yields `... WHERE x IS NULL` with an empty
addition to the parameters list. -/
theorem claim8_is_rendering (vals : List Value) (c : WhereClause)
    (hop : c.operator = .IS ∨ c.operator = .ISNOT) :
    renderClause vals c =
      (c.column ++ " " ++ opText c.operator ++ " " ++
        (if c.value.isNull then "NULL" else jsString c.value), vals) ∧
    toSQL (whereCall (newQB "users") [("x", .vnull)]) =
      .ok ⟨"SELECT * FROM users WHERE x IS NULL", []⟩ := by
  refine ⟨?_, rfl⟩
  have h1 : ¬(c.operator = .IN ∨ c.operator = .NOTIN) := by
    rcases hop with h | h <;> rw [h] <;> simp
  unfold renderClause
  dsimp only
  rw [if_neg h1, if_pos hop]

/-- Witness for C8 at the clause produced by `where({x: null})`. -/
theorem claim8_is_rendering_witness :
    renderClause [] ⟨.AND, "x", .IS, .vnull⟩ = ("x IS NULL", []) ∧
    toSQL (whereCall (newQB "users") [("x", .vnull)]) =
      .ok ⟨"SELECT * FROM users WHERE x IS NULL", []⟩ :=
  claim8_is_rendering [] ⟨.AND, "x", .IS, .vnull⟩ (Or.inl rfl)

end Genless.V1

namespace Genless.V2

/-- The `typeof val === "object" && val !== null && !(val instanceof Date)`
test of `_addWhere`: plain objects and arrays take the operator-key branch. -/
def isOperatorObject : Value → Bool
  | .arr _ => true
  | .obj _ => true
  | _ => false

/-- None of the nine recognized operator keys is present on the value. -/
def noRecognizedKey (v : Value) : Bool :=
  !(jsIn "in" v || jsIn "notIn" v || jsIn "like" v || jsIn "ilike" v ||
    jsIn "gt" v || jsIn "lt" v || jsIn "gte" v || jsIn "lte" v || jsIn "not" v)

theorem clausesOf_append (conn : Connective) :
    ∀ (xs ys : List (String × Value)),
      clausesOf conn (xs ++ ys) = clausesOf conn xs ++ clausesOf conn ys
  | [], ys => rfl
  | (k, v) :: rest, ys => by
    show entryClauses conn k v ++ clausesOf conn (rest ++ ys) = _
    rw [clausesOf_append conn rest ys, ← List.append_assoc]
    rfl

/-- C10: a `where`/`orWhere` entry whose value is a non-null, non-`Date`
object with none of the nine recognized operator keys (for example a bare
array) appends no filter clause at all: the entry is silently dropped and
the compiled SQL and parameters equal those of the same call without the
entry. -/
theorem claim10_unrecognized_entry_dropped (conn : Connective) (k : String) (v : Value)
    (hobj : isOperatorObject v = true) (hkeys : noRecognizedKey v = true) :
    entryClauses conn k v = [] ∧
    ∀ (qb : QueryBuilder) (pre post : List (String × Value)),
      addWhere qb conn (pre ++ (k, v) :: post) = addWhere qb conn (pre ++ post) ∧
      toSQL (addWhere qb conn (pre ++ (k, v) :: post)) =
        toSQL (addWhere qb conn (pre ++ post)) := by
  have hempty : entryClauses conn k v = [] := by
    have h := hkeys
    simp only [noRecognizedKey, Bool.not_eq_true', Bool.or_eq_false_iff] at h
    obtain ⟨⟨⟨⟨⟨⟨⟨⟨h1, h2⟩, h3⟩, h4⟩, h5⟩, h6⟩, h7⟩, h8⟩, h9⟩ := h
    cases v with
    | arr elems => rfl
    | obj fields => simp [entryClauses, opClauses, h1, h2, h3, h4, h5, h6, h7, h8, h9]
    | vnull => cases hobj
    | undef => cases hobj
    | str s => cases hobj
    | int n => cases hobj
    | bool b => cases hobj
    | date ms => cases hobj
  refine ⟨hempty, ?_⟩
  intro qb pre post
  have hstate : addWhere qb conn (pre ++ (k, v) :: post) = addWhere qb conn (pre ++ post) := by
    unfold addWhere
    rw [show (k, v) :: post = [(k, v)] ++ post from rfl]
    rw [clausesOf_append conn pre ([(k, v)] ++ post), clausesOf_append conn [(k, v)] post,
      clausesOf_append conn pre post]
    rw [show clausesOf conn [(k, v)] = entryClauses conn k v from
      (List.append_nil (entryClauses conn k v)).symm ▸ rfl]
    rw [hempty]
    rw [List.nil_append]
  exact ⟨hstate, congrArg toSQL hstate⟩

/-- Witness for C10: the bare-array entry `where({tags: ['a', 'b']})` is
dropped. -/
theorem claim10_unrecognized_entry_dropped_witness :
    entryClauses .AND "tags" (.arr [.str "a", .str "b"]) = [] ∧
    ∀ (qb : QueryBuilder) (pre post : List (String × Value)),
      addWhere qb .AND (pre ++ ("tags", Value.arr [.str "a", .str "b"]) :: post) =
        addWhere qb .AND (pre ++ post) ∧
      toSQL (addWhere qb .AND (pre ++ ("tags", Value.arr [.str "a", .str "b"]) :: post)) =
        toSQL (addWhere qb .AND (pre ++ post)) :=
  claim10_unrecognized_entry_dropped .AND "tags" (.arr [.str "a", .str "b"]) rfl rfl

end Genless.V2

namespace Genless.V2

/-- C5 counterexample: `x)` contains a (closing) parenthesis and no space,
yet `_quote` does not leave it untouched — it double-quotes it.  The
untouched-exception of the source tests only for the opening parenthesis
`(`. -/
theorem claim5_counterexample :
    ("x)".data.contains ')' = true) ∧
    ("x)".data.contains ' ' = false) ∧
    _quote "x)" = "\"x)\"" ∧
    _quote "x)" ≠ "x)" := by
  refine ⟨rfl, rfl, rfl, ?_⟩
  decide

/-- C5 (amended): every identifier position (table name, projected columns,
filter columns, join table and join columns, update keys, insert column
names) is rendered through `_quote`, which double-quotes the identifier
except that `*` is left as-is, an identifier containing a space or an
opening parenthesis `(` is left untouched as a pre-formed expression, an
identifier already starting with a double quote is left untouched, and a
dotted identifier is quoted per segment and rejoined with `.`; the last
conjunct exhibits all positions on a compiled statement. -/
theorem claim5_quote_behaviour (id : String) :
    (id = "*" → _quote id = id) ∧
    (id ≠ "*" →
      (strContains id '(' = true ∨ strContains id ' ' = true ∨ strStartsWith id '"' = true) →
      _quote id = id) ∧
    (id ≠ "*" → strContains id '(' = false → strContains id ' ' = false →
      strStartsWith id '"' = false → strContains id '.' = true →
      _quote id =
        String.intercalate "." ((splitOnChar id '.').map (fun part => "\"" ++ part ++ "\""))) ∧
    (id ≠ "*" → strContains id '(' = false → strContains id ' ' = false →
      strStartsWith id '"' = false → strContains id '.' = false →
      _quote id = "\"" ++ id ++ "\"") ∧
    (∀ j : JoinClause, joinStr j = joinKindText j.type ++ " JOIN " ++ _quote j.table ++ " ON " ++
      _quote j.col1 ++ " " ++ j.op ++ " " ++ _quote j.col2) ∧
    toSQL (selectCols (innerJoin (whereCall (newQB "order") [("group", .int 1)])
        "u" "order.id" "=" "u.oid") ["count(*)", "t.name"]) =
      .ok ⟨"SELECT count(*), \"t\".\"name\" FROM \"order\" INNER JOIN \"u\" ON " ++
            "\"order\".\"id\" = \"u\".\"oid\" WHERE \"group\" = $1",
        [.int 1]⟩ := by
  refine ⟨?_, ?_, ?_, ?_, fun j => rfl, rfl⟩
  · intro h
    unfold _quote
    rw [if_pos h]
  · intro hne hor
    unfold _quote
    rw [if_neg hne, if_pos (by rcases hor with h | h | h <;> simp [h])]
  · intro hne h1 h2 h3 hdot
    unfold _quote
    rw [if_neg hne, if_neg (by simp [h1, h2, h3]), if_pos hdot]
  · intro hne h1 h2 h3 hdot
    unfold _quote
    rw [if_neg hne, if_neg (by simp [h1, h2, h3]), if_neg (by simp [hdot])]

/-- Witness for C5 at the dotted identifier `a.b`. -/
theorem claim5_quote_behaviour_witness : _quote "a.b" = "\"a\".\"b\"" :=
  (claim5_quote_behaviour "a.b").2.2.1 (by decide) rfl rfl rfl rfl

end Genless.V2
